import Mathlib

/-!
Verification of the coincidence-based event reconstruction engine of the
ToolAnalysis repository (`src/UserTools/PhaseITreeMaker/PhaseITreeMaker.h`).

The header in `src/` declares the engine's operations
(`find_ncv_events`, `approve_event`, `compute_tank_charge`) and fully
implements the helper `check_that_not_empty`.  The implementation file
`PhaseITreeMaker.cpp` is not part of `src/`, so the bodies of the three
declared operations are modelled from the specification (`spec.md`,
sections 4.1-4.3), while `check_that_not_empty` is embedded directly from
the source in the header (lines 62-73).

Conventions of the embedding:
* C++ `int64_t` / `int` nanosecond times are `Int`;
* `double` amplitudes and charges are `Rat` (exact real-number model);
* `unsigned short` raw amplitudes and channel identifiers are `Nat`;
* the `std::map<ChannelKey, std::vector<std::vector<ADCPulse>>>` pulse map
  is an association list `List (Nat × List (List ADCPulse))`, the outer
  vector indexed by minibuffer number (`std::map` keys are unique, which
  becomes a `Nodup` hypothesis where distinctness of keys matters);
* logging (`Tool::Log`) is state passing of a `List String` of messages.
-/

/-- One detected signal on one channel within a minibuffer (class `ADCPulse`,
fields per spec section 3). -/
structure ADCPulse where
  start_time : Int
  amplitude : Rat
  charge : Rat
  raw_amplitude : Nat
deriving Repr, DecidableEq

/-- The multi-channel pulse map for a run: channel id, then per-minibuffer
pulse lists (`std::map<ChannelKey, std::vector<std::vector<ADCPulse>>>`). -/
abbrev AdcHits := List (Nat × List (List ADCPulse))

/-- Configuration options of the engine (header lines 95-112). -/
structure Config where
  afterpulsing_veto_time : Int
  tank_charge_window_length : Int
  max_unique_water_pmts : Int
  max_tank_charge : Rat
  ncv_coincidence_tolerance : Int
deriving Repr, DecidableEq

/-- Identifier of primary channel 1 (the NCV PMT whose pulses define
candidate events). -/
def ncv_pmt1_id : Nat := 1

/-- Identifier of primary channel 2 (the partner NCV PMT searched for
coincidences). -/
def ncv_pmt2_id : Nat := 2

/-- A channel is auxiliary ("water PMT") exactly when it is neither of the
two primary NCV channels (spec glossary). -/
def is_aux_channel (ch : Nat) : Bool :=
  decide (ch ≠ ncv_pmt1_id) && decide (ch ≠ ncv_pmt2_id)

/-- Pulses recorded on a channel during one minibuffer: index the channel's
per-minibuffer vector; a missing minibuffer yields no pulses. -/
def minibuffer_pulses (groups : List (List ADCPulse)) (mb : Nat) : List ADCPulse :=
  groups.getD mb []

/-- Look a channel up in the pulse map (`std::map::find`); an absent channel
contributes no pulses. -/
def lookup_channel (hits : AdcHits) (ch : Nat) : List (List ADCPulse) :=
  match hits.find? (fun e => e.1 == ch) with
  | some e => e.2
  | none => []

/-- The primary-channel-2 pulse stream for a minibuffer. -/
def ncv2_pulses (hits : AdcHits) (mb : Nat) : List ADCPulse :=
  minibuffer_pulses (lookup_channel hits ncv_pmt2_id) mb

/-- Membership of a pulse's start time in the closed window `[t0, t1]`. -/
def in_window (t0 t1 : Int) (p : ADCPulse) : Bool :=
  decide (t0 ≤ p.start_time) && decide (p.start_time ≤ t1)

/-- Total charge of a list of pulses. -/
def charge_sum : List ADCPulse → Rat
  | [] => 0
  | p :: rest => p.charge + charge_sum rest

/-- The pulses of one channel's minibuffer whose start times fall in the
closed window `[t0, t1]`. -/
def window_pulses (mb : Nat) (groups : List (List ADCPulse)) (t0 t1 : Int) :
    List ADCPulse :=
  (minibuffer_pulses groups mb).filter (in_window t0 t1)

/-- Modelled from the spec: the body of `PhaseITreeMaker::compute_tank_charge`
is not under `src/` (the header only declares it, lines 82-85).  Per spec
section 4.2: for every auxiliary channel, sum the `charge` of every pulse
whose `start_time` falls within the closed interval `[t0, t1]`, and
accumulate a running count of distinct channel identifiers that contributed
at least one such pulse.  This is the loop body for one channel of the
pulse map: an auxiliary channel adds its in-window charge to the running
total and bumps the distinct-channel count when it contributed at least
one in-window pulse; primary channels are skipped. -/
def tank_charge_step (mb : Nat) (t0 t1 : Int) (acc : Rat × Nat)
    (entry : Nat × List (List ADCPulse)) : Rat × Nat :=
  if is_aux_channel entry.1 then
    (acc.1 + charge_sum (window_pulses mb entry.2 t0 t1),
     acc.2 + if (window_pulses mb entry.2 t0 t1).isEmpty then 0 else 1)
  else acc

/-- Modelled from the spec: the loop of `compute_tank_charge` over the
pulse map, started from zero charge and zero distinct channels.  Returns
`(total_charge, num_unique_water_pmts)`. -/
def compute_tank_charge (mb : Nat) (hits : AdcHits) (t0 t1 : Int) : Rat × Nat :=
  hits.foldl (tank_charge_step mb t0 t1) (0, 0)

/-- Absolute time difference (in ns) between a pulse and a reference time. -/
def time_diff (pt : Int) (q : ADCPulse) : Nat :=
  (q.start_time - pt).natAbs

/-- Whether a pulse lies within the coincidence tolerance of a reference
time (absolute difference, so both before and after the reference). -/
def in_tolerance (tol pt : Int) (q : ADCPulse) : Bool :=
  decide ((time_diff pt q : Int) ≤ tol)

/-- Strict "is a better coincidence match" comparison: strictly smaller
absolute time difference, or equal difference and strictly earlier start
time (spec section 4.1 tie-break: the earlier pulse wins). -/
def closer (pt : Int) (q r : ADCPulse) : Bool :=
  decide (time_diff pt q < time_diff pt r) ||
    (decide (time_diff pt q = time_diff pt r) && decide (q.start_time < r.start_time))

/-- Scan the remaining candidates, replacing the current best match whenever
a strictly better one appears. -/
def pick_better (pt : Int) (best : ADCPulse) : List ADCPulse → ADCPulse
  | [] => best
  | q :: rest => pick_better pt (if closer pt q best then q else best) rest

/-- Modelled from the spec: the body of `PhaseITreeMaker::approve_event`
(the coincidence search) is not under `src/` (the header only declares it,
lines 77-80).  Per spec section 4.1 step 2: among the channel-2 pulses
within `ncv_coincidence_tolerance` ns of the reference time (absolute
difference), select the one with the smallest absolute difference, the
earlier one on a tie; `none` when no pulse is within tolerance. -/
def pick_coincident (tol pt : Int) (qs : List ADCPulse) : Option ADCPulse :=
  match qs.filter (in_tolerance tol pt) with
  | [] => none
  | q :: rest => some (pick_better pt q rest)

/-- The reconstructed output of a match (spec section 3; branch variables of
the header, lines 120-149). -/
structure CandidateEvent where
  event_time : Int
  amplitude_ncv1 : Rat
  charge_ncv1 : Rat
  raw_amplitude_ncv1 : Nat
  ncv1_fired : Bool
  ncv2_fired : Bool
  amplitude_ncv2 : Rat
  charge_ncv2 : Rat
  raw_amplitude_ncv2 : Nat
  ncv2_pulse_time_ns : Int
  tank_charge : Rat
  unique_hit_water_pmts : Nat
  time_since_last_event : Int
  passed_afterpulse_cut : Bool
  passed_unique_water_pmt_cut : Bool
  passed_tank_charge_cut : Bool
deriving Repr, DecidableEq

/-- Modelled from the spec: candidate assembly and classification
(spec sections 4.1 step 3 and 4.3) for an accepted channel-1 pulse `p`.
The channel-2 fields take the matched pulse's values, or the header's
"not fired" sentinel defaults (false / 0) when no pulse is within
tolerance.  The tank-charge window is anchored at the event time and
extends `tank_charge_window_length` ns after it (the anchor policy is an
explicit configuration choice per spec section 9). -/
def make_candidate (cfg : Config) (hits : AdcHits) (mb : Nat) (p : ADCPulse)
    (old : Int) : CandidateEvent :=
  let m := pick_coincident cfg.ncv_coincidence_tolerance p.start_time (ncv2_pulses hits mb)
  let tc := compute_tank_charge mb hits p.start_time
    (p.start_time + cfg.tank_charge_window_length)
  { event_time := p.start_time
    amplitude_ncv1 := p.amplitude
    charge_ncv1 := p.charge
    raw_amplitude_ncv1 := p.raw_amplitude
    ncv1_fired := true
    ncv2_fired := m.isSome
    amplitude_ncv2 := (m.map (fun q => q.amplitude)).getD 0
    charge_ncv2 := (m.map (fun q => q.charge)).getD 0
    raw_amplitude_ncv2 := (m.map (fun q => q.raw_amplitude)).getD 0
    ncv2_pulse_time_ns := (m.map (fun q => q.start_time)).getD 0
    tank_charge := tc.1
    unique_hit_water_pmts := tc.2
    time_since_last_event := p.start_time - old
    passed_afterpulse_cut := true
    passed_unique_water_pmt_cut := decide ((tc.2 : Int) ≤ cfg.max_unique_water_pmts)
    passed_tank_charge_cut := decide (tc.1 ≤ cfg.max_tank_charge) }

/-- Modelled from the spec: the body of `PhaseITreeMaker::find_ncv_events`
is not under `src/` (the header only declares it, lines 87-90).  Per spec
section 4.1: process the channel-1 pulses in acquisition order, carrying the
running previous-accepted-event-time cursor `old`.  A pulse closer than
`afterpulsing_veto_time` ns to the previous accepted event is discarded with
no candidate emitted; otherwise a candidate is emitted and the cursor is
updated to the pulse's start time.  Returns the final cursor value and the
ordered candidate sequence. -/
def find_ncv_events (cfg : Config) (hits : AdcHits) (mb : Nat) :
    List ADCPulse → Int → Int × List CandidateEvent
  | [], old => (old, [])
  | p :: rest, old =>
    if p.start_time - old < cfg.afterpulsing_veto_time then
      find_ncv_events cfg hits mb rest old
    else
      let r := find_ncv_events cfg hits mb rest p.start_time
      (r.1, make_candidate cfg hits mb p old :: r.2)

/-- The engine-owned mutable state relevant to the claims: configuration
members and the candidate branch variables of the header (lines 92-149).
The ROOT file/tree handles are out-of-scope persistence collaborators
(spec section 1). -/
structure EngineState where
  config : Config
  verbosity : Int
  event_time_ns : Int
  tank_charge : Rat
  unique_hit_water_pmts : Nat
  time_since_last_event : Int
  passed_afterpulse_cut : Bool
  passed_unique_water_pmt_cut : Bool
  passed_tank_charge_cut : Bool
deriving Repr, DecidableEq

/-- Modelled from the spec: `compute_tank_charge` as a member function of
the engine, with the engine state threaded explicitly.  Per spec section
4.2 it has "No side effects; pure function of its inputs", so it returns
the state unchanged together with the pair (return value, value written to
the `num_unique_water_pmts` out-parameter). -/
def compute_tank_charge_member (st : EngineState) (mb : Nat) (hits : AdcHits)
    (t0 t1 : Int) : EngineState × Rat × Nat :=
  (st, compute_tank_charge mb hits t0 t1)

/-- Embedded from the source (header lines 62-73):
`PhaseITreeMaker::check_that_not_empty(object_label, obj)` for a container
`obj` supporting `empty()`, modelled generically as a list.  `Log` appends
to the message list; the function returns `!is_empty`, the untouched
container, and the updated log. -/
def check_that_not_empty {α : Type} (object_label : String) (obj : List α)
    (log : List String) : Bool × List α × List String :=
  let is_empty := obj.isEmpty
  let log1 :=
    if is_empty then
      log ++ ["Error: The PhaseITreeMaker tool found an empty " ++ object_label
        ++ " entry"]
    else log
  (!is_empty, obj, log1)

/-! Demonstration inputs: the concrete scenario of spec section 8 (channel-1
pulses at 100 ns and 250 ns, a channel-2 pulse at 105 ns, tolerance 20 ns,
veto 100 ns, three auxiliary channels). -/

/-- Demonstration configuration (spec section 8 scenario values). -/
def demo_cfg : Config where
  afterpulsing_veto_time := 100
  tank_charge_window_length := 40
  max_unique_water_pmts := 2
  max_tank_charge := 10
  ncv_coincidence_tolerance := 20

/-- Channel-1 pulse at 100 ns. -/
def demo_p100 : ADCPulse where
  start_time := 100
  amplitude := 1
  charge := 2
  raw_amplitude := 3

/-- Channel-1 pulse at 150 ns (the vetoed pulse of the spec scenario). -/
def demo_p150 : ADCPulse where
  start_time := 150
  amplitude := 1
  charge := 2
  raw_amplitude := 3

/-- Channel-1 pulse at 250 ns. -/
def demo_p250 : ADCPulse where
  start_time := 250
  amplitude := 1
  charge := 2
  raw_amplitude := 3

/-- Channel-2 pulse at 105 ns. -/
def demo_q105 : ADCPulse where
  start_time := 105
  amplitude := 5
  charge := 6
  raw_amplitude := 7

/-- Channel-2 pulse at 95 ns (equidistant from 100 ns with `demo_q105`). -/
def demo_q95 : ADCPulse where
  start_time := 95
  amplitude := 5
  charge := 6
  raw_amplitude := 7

/-- Auxiliary pulse on channel 3 at 110 ns, charge 1 nC. -/
def demo_a3 : ADCPulse where
  start_time := 110
  amplitude := 1
  charge := 1
  raw_amplitude := 1

/-- Auxiliary pulse on channel 4 at 120 ns, charge 2 nC. -/
def demo_a4 : ADCPulse where
  start_time := 120
  amplitude := 1
  charge := 2
  raw_amplitude := 1

/-- Auxiliary pulse on channel 5 at 130 ns, charge 3 nC. -/
def demo_a5 : ADCPulse where
  start_time := 130
  amplitude := 1
  charge := 3
  raw_amplitude := 1

/-- Demonstration pulse map with both primary channels and three auxiliary
channels. -/
def demo_hits : AdcHits :=
  [(ncv_pmt1_id, [[demo_p100, demo_p250]]),
   (ncv_pmt2_id, [[demo_q105]]),
   (3, [[demo_a3]]),
   (4, [[demo_a4]]),
   (5, [[demo_a5]])]

/-- Demonstration pulse map whose channel-2 stream has two pulses
equidistant from 100 ns. -/
def demo_hits2 : AdcHits :=
  [(ncv_pmt2_id, [[demo_q95, demo_q105]])]

/-- C1: a channel-1 pulse arriving within `afterpulsing_veto_time` ns of
the previous accepted event is discarded: the engine behaves exactly as if
the pulse were absent, so no `CandidateEvent` is emitted for it and the
cursor is unchanged. -/
theorem find_ncv_events_vetoed_discarded (cfg : Config) (hits : AdcHits)
    (mb : Nat) (p : ADCPulse) (rest : List ADCPulse) (old : Int)
    (h : p.start_time - old < cfg.afterpulsing_veto_time) :
    find_ncv_events cfg hits mb (p :: rest) old =
      find_ncv_events cfg hits mb rest old := by
  simp [find_ncv_events, h]

/-- C1 witness: the spec scenario pulse at 150 ns with cursor 100 ns and
veto 100 ns is discarded. -/
theorem find_ncv_events_vetoed_discarded_witness :
    find_ncv_events demo_cfg demo_hits 0 (demo_p150 :: []) 100 =
      find_ncv_events demo_cfg demo_hits 0 [] 100 :=
  find_ncv_events_vetoed_discarded demo_cfg demo_hits 0 demo_p150 [] 100 (by decide)

/-- Helper: the first candidate emitted from any pulse list is at least
the veto time after the incoming cursor. -/
theorem find_ncv_events_head_time (cfg : Config) (hits : AdcHits) (mb : Nat)
    (ps : List ADCPulse) :
    ∀ (old : Int) (e : CandidateEvent) (l : List CandidateEvent),
    (find_ncv_events cfg hits mb ps old).2 = e :: l →
    cfg.afterpulsing_veto_time ≤ e.event_time - old := by
  induction ps with
  | nil => intro old e l h; simp [find_ncv_events] at h
  | cons p rest ih =>
    intro old e l h
    by_cases hv : p.start_time - old < cfg.afterpulsing_veto_time
    · rw [find_ncv_events, if_pos hv] at h
      exact ih old e l h
    · rw [find_ncv_events, if_neg hv] at h
      obtain ⟨h1, -⟩ := List.cons_eq_cons.mp h
      have he : e.event_time = p.start_time := by rw [← h1]; rfl
      rw [he]
      omega

/-- C6: the output candidate sequence satisfies veto monotonicity: each
consecutive pair of accepted candidates is separated by at least
`afterpulsing_veto_time` ns. -/
theorem find_ncv_events_veto_monotone (cfg : Config) (hits : AdcHits)
    (mb : Nat) (ps : List ADCPulse) (old : Int) :
    List.Chain'
      (fun a b => cfg.afterpulsing_veto_time ≤ b.event_time - a.event_time)
      (find_ncv_events cfg hits mb ps old).2 := by
  induction ps generalizing old with
  | nil => simp [find_ncv_events]
  | cons p rest ih =>
    by_cases hv : p.start_time - old < cfg.afterpulsing_veto_time
    · rw [find_ncv_events, if_pos hv]
      exact ih old
    · rw [find_ncv_events, if_neg hv]
      rw [List.chain'_cons']
      refine ⟨?_, ih p.start_time⟩
      intro y hy
      cases hhead : (find_ncv_events cfg hits mb rest p.start_time).2 with
      | nil => rw [hhead] at hy; simp at hy
      | cons e l =>
        rw [hhead] at hy
        simp only [List.head?_cons, Option.mem_def, Option.some.injEq] at hy
        have hbound := find_ncv_events_head_time cfg hits mb rest p.start_time e l hhead
        have hev : (make_candidate cfg hits mb p old).event_time = p.start_time := rfl
        rw [← hy, hev]
        omega

/-- C3: a channel-1 pulse that passes the afterpulsing veto but has no
channel-2 pulse within the coincidence tolerance still produces a
candidate, with the channel-2 "not fired" sentinel (fired flag false and
zeroed channel-2 fields); the missing match never causes rejection. -/
theorem find_ncv_events_no_match_recorded (cfg : Config) (hits : AdcHits)
    (mb : Nat) (p : ADCPulse) (rest : List ADCPulse) (old : Int)
    (hv : cfg.afterpulsing_veto_time ≤ p.start_time - old)
    (hm : pick_coincident cfg.ncv_coincidence_tolerance p.start_time
      (ncv2_pulses hits mb) = none) :
    (find_ncv_events cfg hits mb (p :: rest) old).2 =
      make_candidate cfg hits mb p old ::
        (find_ncv_events cfg hits mb rest p.start_time).2 ∧
    (make_candidate cfg hits mb p old).ncv2_fired = false ∧
    (make_candidate cfg hits mb p old).event_time = p.start_time ∧
    (make_candidate cfg hits mb p old).charge_ncv2 = 0 ∧
    (make_candidate cfg hits mb p old).amplitude_ncv2 = 0 := by
  have hv' : ¬ (p.start_time - old < cfg.afterpulsing_veto_time) := by omega
  refine ⟨by rw [find_ncv_events, if_neg hv'], ?_, rfl, ?_, ?_⟩ <;>
    simp [make_candidate, hm]

/-- C3 witness: the spec scenario pulse at 250 ns (cursor 100 ns) passes
the veto but has no channel-2 match, and is still recorded with the
channel-2 sentinel. -/
theorem find_ncv_events_no_match_recorded_witness :
    (find_ncv_events demo_cfg demo_hits 0 (demo_p250 :: []) 100).2 =
      make_candidate demo_cfg demo_hits 0 demo_p250 100 ::
        (find_ncv_events demo_cfg demo_hits 0 [] demo_p250.start_time).2 ∧
    (make_candidate demo_cfg demo_hits 0 demo_p250 100).ncv2_fired = false ∧
    (make_candidate demo_cfg demo_hits 0 demo_p250 100).event_time =
      demo_p250.start_time ∧
    (make_candidate demo_cfg demo_hits 0 demo_p250 100).charge_ncv2 = 0 ∧
    (make_candidate demo_cfg demo_hits 0 demo_p250 100).amplitude_ncv2 = 0 :=
  find_ncv_events_no_match_recorded demo_cfg demo_hits 0 demo_p250 [] 100
    (by decide) (by decide)

/-- C5: every candidate in the output sequence has its unique-water-PMT cut
flag true exactly when its distinct auxiliary-channel count is at most
`max_unique_water_pmts`, and its tank-charge cut flag true exactly when
its aggregate tank charge is at most `max_tank_charge`. -/
theorem find_ncv_events_cut_flags (cfg : Config) (hits : AdcHits) (mb : Nat)
    (ps : List ADCPulse) (old : Int) (e : CandidateEvent)
    (he : e ∈ (find_ncv_events cfg hits mb ps old).2) :
    (e.passed_unique_water_pmt_cut = true ↔
      (e.unique_hit_water_pmts : Int) ≤ cfg.max_unique_water_pmts) ∧
    (e.passed_tank_charge_cut = true ↔ e.tank_charge ≤ cfg.max_tank_charge) := by
  induction ps generalizing old with
  | nil => simp [find_ncv_events] at he
  | cons p rest ih =>
    by_cases hv : p.start_time - old < cfg.afterpulsing_veto_time
    · rw [find_ncv_events, if_pos hv] at he
      exact ih old he
    · rw [find_ncv_events, if_neg hv] at he
      rcases List.mem_cons.mp he with h | h
      · subst h
        constructor <;> simp [make_candidate]
      · exact ih p.start_time h

/-- C5 witness: the candidate reconstructed from the 100 ns pulse in the
demonstration scenario carries cut flags equivalent to the configured
bounds. -/
theorem find_ncv_events_cut_flags_witness :
    ((make_candidate demo_cfg demo_hits 0 demo_p100 (-1000)).passed_unique_water_pmt_cut = true ↔
      ((make_candidate demo_cfg demo_hits 0 demo_p100 (-1000)).unique_hit_water_pmts : Int) ≤
        demo_cfg.max_unique_water_pmts) ∧
    ((make_candidate demo_cfg demo_hits 0 demo_p100 (-1000)).passed_tank_charge_cut = true ↔
      (make_candidate demo_cfg demo_hits 0 demo_p100 (-1000)).tank_charge ≤
        demo_cfg.max_tank_charge) :=
  find_ncv_events_cut_flags demo_cfg demo_hits 0 (demo_p100 :: []) (-1000)
    (make_candidate demo_cfg demo_hits 0 demo_p100 (-1000))
    (by
      have hout : (find_ncv_events demo_cfg demo_hits 0 (demo_p100 :: []) (-1000)).2 =
          [make_candidate demo_cfg demo_hits 0 demo_p100 (-1000)] := by
        rw [find_ncv_events, if_neg (by decide)]
        rfl
      rw [hout]
      exact List.mem_singleton_self _)

/-- Helper: closed form of the aggregation loop from an arbitrary
accumulator: the final total is the initial total plus the sum of the
per-auxiliary-channel in-window charges, and the final count is the
initial count plus the number of auxiliary map entries with at least one
in-window pulse. -/
theorem tank_charge_foldl (mb : Nat) (t0 t1 : Int) (hits : AdcHits) :
    ∀ init : Rat × Nat,
    hits.foldl (tank_charge_step mb t0 t1) init =
      (init.1 + ((hits.filter fun e => is_aux_channel e.1).map
          fun e => charge_sum (window_pulses mb e.2 t0 t1)).sum,
       init.2 + (hits.filter fun e =>
          is_aux_channel e.1 && !(window_pulses mb e.2 t0 t1).isEmpty).length) := by
  induction hits with
  | nil => intro init; simp
  | cons x t ih =>
    intro init
    rw [List.foldl_cons, ih]
    by_cases ha : is_aux_channel x.1
    · by_cases he : (window_pulses mb x.2 t0 t1).isEmpty
      · have hz : charge_sum (window_pulses mb x.2 t0 t1) = 0 := by
          rw [List.isEmpty_iff.mp he]; rfl
        simp [tank_charge_step, ha, he, hz, List.filter_cons, add_assoc]
      · simp [tank_charge_step, ha, he, List.filter_cons, add_assoc]
        omega
    · simp [tank_charge_step, ha, List.filter_cons]

/-- C4: the charge returned by `compute_tank_charge` is the sum over all
auxiliary channels of the charges of their pulses with start times in the
closed window `[t0, t1]`, and the out-parameter is the number of distinct
auxiliary channel identifiers contributing at least one such pulse (the
`std::map` keys being unique is the `Nodup` hypothesis). -/
theorem compute_tank_charge_sums (mb : Nat) (hits : AdcHits) (t0 t1 : Int)
    (hkeys : (hits.map Prod.fst).Nodup) :
    (compute_tank_charge mb hits t0 t1).1 =
      ((hits.filter fun e => is_aux_channel e.1).map
        fun e => charge_sum (window_pulses mb e.2 t0 t1)).sum ∧
    (compute_tank_charge mb hits t0 t1).2 =
      ((hits.filter fun e =>
          is_aux_channel e.1 && !(window_pulses mb e.2 t0 t1).isEmpty).map
        Prod.fst).dedup.length := by
  rw [compute_tank_charge, tank_charge_foldl]
  constructor
  · simp
  · have hsub : ((hits.filter fun e =>
        is_aux_channel e.1 && !(window_pulses mb e.2 t0 t1).isEmpty).map
          Prod.fst).Sublist (hits.map Prod.fst) :=
      (List.filter_sublist hits).map Prod.fst
    rw [List.Nodup.dedup (hkeys.sublist hsub), List.length_map]
    simp

/-- C4 witness: on the demonstration pulse map with window `[100, 140]`,
the closed forms hold (total 6 nC over the three distinct auxiliary
channels 3, 4 and 5). -/
theorem compute_tank_charge_sums_witness :
    (compute_tank_charge 0 demo_hits 100 140).1 =
      ((demo_hits.filter fun e => is_aux_channel e.1).map
        fun e => charge_sum (window_pulses 0 e.2 100 140)).sum ∧
    (compute_tank_charge 0 demo_hits 100 140).2 =
      ((demo_hits.filter fun e =>
          is_aux_channel e.1 && !(window_pulses 0 e.2 100 140).isEmpty).map
        Prod.fst).dedup.length :=
  compute_tank_charge_sums 0 demo_hits 100 140 (by decide)

/-- Helper: decoding window membership into inequalities. -/
theorem in_window_iff (t0 t1 : Int) (p : ADCPulse) :
    in_window t0 t1 p = true ↔ (t0 ≤ p.start_time ∧ p.start_time ≤ t1) := by
  simp [in_window]

/-- Helper: splitting a closed window at an interior point splits the
charge sum of any pulse list without double counting or gaps. -/
theorem charge_sum_window_split (a b c : Int) (h1 : a ≤ b) (h2 : b < c)
    (l : List ADCPulse) :
    charge_sum (l.filter (in_window a b)) +
      charge_sum (l.filter (in_window (b + 1) c)) =
      charge_sum (l.filter (in_window a c)) := by
  induction l with
  | nil => simp [charge_sum]
  | cons p t ih =>
    have hacv : in_window a c p = (in_window a b p || in_window (b + 1) c p) := by
      rw [Bool.eq_iff_iff]
      simp only [Bool.or_eq_true, in_window_iff]
      omega
    have hnotboth : ¬(in_window a b p = true ∧ in_window (b + 1) c p = true) := by
      simp only [in_window_iff]
      omega
    cases hab : in_window a b p with
    | true =>
      cases hbc : in_window (b + 1) c p with
      | true => exact absurd ⟨hab, hbc⟩ hnotboth
      | false =>
        rw [hab, hbc] at hacv
        simp only [Bool.or_false] at hacv
        simp [List.filter_cons, hab, hbc, hacv, charge_sum]
        linarith [ih]
    | false =>
      cases hbc : in_window (b + 1) c p with
      | true =>
        rw [hab, hbc] at hacv
        simp only [Bool.false_or] at hacv
        simp [List.filter_cons, hab, hbc, hacv, charge_sum]
        linarith [ih]
      | false =>
        rw [hab, hbc] at hacv
        simp only [Bool.or_false] at hacv
        simp [List.filter_cons, hab, hbc, hacv, charge_sum]
        linarith [ih]

/-- Helper: pointwise-additive maps have additive sums. -/
theorem sum_map_add_pointwise {α : Type} (f g k : α → Rat)
    (hpt : ∀ x, f x + g x = k x) : ∀ l : List α,
    (l.map f).sum + (l.map g).sum = (l.map k).sum := by
  intro l
  induction l with
  | nil => simp
  | cons x t ih =>
    simp only [List.map_cons, List.sum_cons]
    rw [← hpt x, ← ih]
    ring

/-- C7: for window bounds `a ≤ b < c`, the charge returned by
`compute_tank_charge` over `[a, b]` plus the charge over `(b, c]` (which
over integer nanoseconds is `[b + 1, c]`) equals the charge over `[a, c]`:
adjacent windows neither double count nor leave gaps. -/
theorem compute_tank_charge_additive (mb : Nat) (hits : AdcHits) (a b c : Int)
    (h1 : a ≤ b) (h2 : b < c) :
    (compute_tank_charge mb hits a b).1 +
      (compute_tank_charge mb hits (b + 1) c).1 =
      (compute_tank_charge mb hits a c).1 := by
  rw [compute_tank_charge, compute_tank_charge, compute_tank_charge,
    tank_charge_foldl, tank_charge_foldl, tank_charge_foldl]
  simp only [zero_add]
  exact sum_map_add_pointwise _ _ _
    (fun e => charge_sum_window_split a b c h1 h2 (minibuffer_pulses e.2 mb))
    (hits.filter fun e => is_aux_channel e.1)

/-- C7 witness: splitting the demonstration window `[100, 140]` at 120
conserves the total charge. -/
theorem compute_tank_charge_additive_witness :
    (compute_tank_charge 0 demo_hits 100 120).1 +
      (compute_tank_charge 0 demo_hits (120 + 1) 140).1 =
      (compute_tank_charge 0 demo_hits 100 140).1 :=
  compute_tank_charge_additive 0 demo_hits 100 120 140 (by decide) (by decide)

/-- Helper: filtering on a conjunction yields at most as many elements as
filtering on one conjunct. -/
theorem length_filter_and_le {α : Type} (p q : α → Bool) (l : List α) :
    (l.filter fun x => p x && q x).length ≤ (l.filter p).length := by
  induction l with
  | nil => simp
  | cons x t ih =>
    by_cases hp : p x = true
    · by_cases hq : q x = true <;> simp [List.filter_cons, hp, hq] <;> omega
    · have hp2 : p x = false := by revert hp; cases p x <;> simp
      simp [List.filter_cons, hp2, ih]

/-- C9: the distinct-channel count written by `compute_tank_charge` is a
non-negative integer bounded by the number of auxiliary channels present
in the pulse map. -/
theorem compute_tank_charge_count_bounded (mb : Nat) (hits : AdcHits)
    (t0 t1 : Int) :
    0 ≤ ((compute_tank_charge mb hits t0 t1).2 : Int) ∧
    (compute_tank_charge mb hits t0 t1).2 ≤
      (hits.filter fun e => is_aux_channel e.1).length := by
  constructor
  · exact Int.natCast_nonneg _
  · rw [compute_tank_charge, tank_charge_foldl]
    simp only [zero_add]
    exact length_filter_and_le _ _ hits

/-- Helper: decoding the `closer` comparison. -/
theorem closer_eq_true_iff (pt : Int) (x y : ADCPulse) :
    closer pt x y = true ↔
      (time_diff pt x < time_diff pt y ∨
        (time_diff pt x = time_diff pt y ∧ x.start_time < y.start_time)) := by
  simp [closer]

/-- Helper: decoding failure of the `closer` comparison. -/
theorem closer_eq_false_iff (pt : Int) (x y : ADCPulse) :
    closer pt x y = false ↔
      ¬(time_diff pt x < time_diff pt y ∨
        (time_diff pt x = time_diff pt y ∧ x.start_time < y.start_time)) := by
  rw [← Bool.not_eq_true, closer_eq_true_iff]

/-- Helper: a strict lexicographic comparison is asymmetric. -/
theorem lex_lt_asymm (d1 d2 : Nat) (s1 s2 : Int)
    (h : d1 < d2 ∨ (d1 = d2 ∧ s1 < s2)) :
    ¬(d2 < d1 ∨ (d2 = d1 ∧ s2 < s1)) := by omega

/-- Helper: the complement of a strict lexicographic comparison is
transitive. -/
theorem lex_not_lt_trans (d1 d2 d3 : Nat) (s1 s2 s3 : Int)
    (h1 : ¬(d1 < d2 ∨ (d1 = d2 ∧ s1 < s2)))
    (h2 : ¬(d2 < d3 ∨ (d2 = d3 ∧ s2 < s3))) :
    ¬(d1 < d3 ∨ (d1 = d3 ∧ s1 < s3)) := by omega

/-- Helper: not being strictly closer means being at least as far, and
no earlier on an exact tie. -/
theorem lex_not_lt_le (d1 d2 : Nat) (s1 s2 : Int)
    (h : ¬(d1 < d2 ∨ (d1 = d2 ∧ s1 < s2))) :
    d2 ≤ d1 ∧ (d2 = d1 → s2 ≤ s1) := by omega

/-- Helper: no pulse is strictly closer than itself. -/
theorem closer_irrefl (pt : Int) (q : ADCPulse) : closer pt q q = false := by
  simp [closer]

/-- Helper: `closer` is asymmetric. -/
theorem closer_asymm (pt : Int) (q b : ADCPulse) (h : closer pt q b = true) :
    closer pt b q = false := by
  rw [closer_eq_true_iff] at h
  rw [closer_eq_false_iff]
  exact lex_lt_asymm _ _ _ _ h

/-- Helper: the complement of `closer` is transitive. -/
theorem closer_false_trans (pt : Int) (x y z : ADCPulse)
    (h1 : closer pt x y = false) (h2 : closer pt y z = false) :
    closer pt x z = false := by
  rw [closer_eq_false_iff] at h1 h2 ⊢
  exact lex_not_lt_trans _ _ _ _ _ _ h1 h2

/-- Helper: the running best returned by `pick_better` is one of the
candidates. -/
theorem pick_better_mem (pt : Int) :
    ∀ (l : List ADCPulse) (b : ADCPulse), pick_better pt b l ∈ b :: l := by
  intro l
  induction l with
  | nil => intro b; simp [pick_better]
  | cons q t ih =>
    intro b
    rw [pick_better]
    by_cases h : closer pt q b = true
    · rw [if_pos h]
      exact List.mem_cons_of_mem b (ih q)
    · rw [if_neg h]
      rcases List.mem_cons.mp (ih b) with h1 | h1
      · rw [h1]
        exact List.mem_cons_self b (q :: t)
      · exact List.mem_cons_of_mem b (List.mem_cons_of_mem q h1)

/-- Helper: no candidate is strictly closer than the running best returned
by `pick_better`. -/
theorem pick_better_min (pt : Int) :
    ∀ (l : List ADCPulse) (b x : ADCPulse), x ∈ b :: l →
      closer pt x (pick_better pt b l) = false := by
  intro l
  induction l with
  | nil =>
    intro b x hx
    rw [pick_better]
    rcases List.mem_cons.mp hx with h | h
    · rw [h]; exact closer_irrefl pt b
    · simp at h
  | cons q t ih =>
    intro b x hx
    rw [pick_better]
    by_cases h : closer pt q b = true
    · rw [if_pos h]
      rcases List.mem_cons.mp hx with h1 | h1
      · rw [h1]
        exact closer_false_trans pt b q (pick_better pt q t)
          (closer_asymm pt q b h) (ih q q (List.mem_cons_self q t))
      · exact ih q x h1
    · rw [if_neg h]
      have hf : closer pt q b = false := by revert h; cases closer pt q b <;> simp
      rcases List.mem_cons.mp hx with h1 | h1
      · rw [h1]
        exact ih b b (List.mem_cons_self b t)
      · rcases List.mem_cons.mp h1 with h2 | h2
        · rw [h2]
          exact closer_false_trans pt q b (pick_better pt b t) hf
            (ih b b (List.mem_cons_self b t))
        · exact ih b x (List.mem_cons_of_mem b h2)

/-- C2: the coincidence search over the channel-2 stream considers every
pulse within `ncv_coincidence_tolerance` ns of the reference pulse
(absolute difference, before and after): it returns no match exactly when
no pulse is within tolerance, and any returned match is a within-tolerance
channel-2 pulse whose absolute time difference is minimal, the earlier
pulse winning an exact tie. -/
theorem coincidence_search_nearest (cfg : Config) (hits : AdcHits) (mb : Nat)
    (p : ADCPulse) :
    (pick_coincident cfg.ncv_coincidence_tolerance p.start_time
        (ncv2_pulses hits mb) = none →
      ∀ q ∈ ncv2_pulses hits mb,
        in_tolerance cfg.ncv_coincidence_tolerance p.start_time q = false) ∧
    (∀ b, pick_coincident cfg.ncv_coincidence_tolerance p.start_time
        (ncv2_pulses hits mb) = some b →
      b ∈ ncv2_pulses hits mb ∧
      in_tolerance cfg.ncv_coincidence_tolerance p.start_time b = true ∧
      ∀ q ∈ ncv2_pulses hits mb,
        in_tolerance cfg.ncv_coincidence_tolerance p.start_time q = true →
        time_diff p.start_time b ≤ time_diff p.start_time q ∧
        (time_diff p.start_time b = time_diff p.start_time q →
          b.start_time ≤ q.start_time)) := by
  set tol := cfg.ncv_coincidence_tolerance with htol2
  set pt := p.start_time with hpt2
  set qs := ncv2_pulses hits mb with hqs2
  constructor
  · intro hnone q hq
    rw [pick_coincident] at hnone
    cases hfil : qs.filter (in_tolerance tol pt) with
    | nil =>
      have hnot := List.filter_eq_nil_iff.mp hfil q hq
      revert hnot
      cases in_tolerance tol pt q <;> simp
    | cons y ys =>
      rw [hfil] at hnone
      simp at hnone
  · intro b hb
    rw [pick_coincident] at hb
    cases hfil : qs.filter (in_tolerance tol pt) with
    | nil =>
      rw [hfil] at hb
      simp at hb
    | cons y ys =>
      rw [hfil] at hb
      simp only [Option.some.injEq] at hb
      have hmem : b ∈ y :: ys := hb ▸ pick_better_mem pt ys y
      have hmemf : b ∈ qs.filter (in_tolerance tol pt) := by
        rw [hfil]; exact hmem
      refine ⟨List.mem_of_mem_filter hmemf, List.of_mem_filter hmemf, ?_⟩
      intro q hq hintol
      have hqf : q ∈ y :: ys := by
        rw [← hfil]
        exact List.mem_filter.mpr ⟨hq, hintol⟩
      have hcl : closer pt q b = false := hb ▸ pick_better_min pt ys y q hqf
      rw [closer_eq_false_iff] at hcl
      exact lex_not_lt_le _ _ _ _ hcl

/-- C2 witness: with channel-2 pulses at 95 ns and 105 ns, both 5 ns from
the reference pulse at 100 ns, the selected match is at least as close as
the 105 ns pulse and, being exactly tied, is the earlier one. -/
theorem coincidence_search_nearest_witness :
    time_diff demo_p100.start_time demo_q95 ≤
      time_diff demo_p100.start_time demo_q105 ∧
    (time_diff demo_p100.start_time demo_q95 =
        time_diff demo_p100.start_time demo_q105 →
      demo_q95.start_time ≤ demo_q105.start_time) :=
  (((coincidence_search_nearest demo_cfg demo_hits2 0 demo_p100).2 demo_q95
      (by rfl)).2.2 demo_q105 (by decide) (by rfl))

/-- C8: `compute_tank_charge` is free of side effects: run as a member
function it leaves the engine state unchanged, and its return value and
out-parameter value are a function of the four arguments alone (identical
across any two engine states). -/
theorem compute_tank_charge_member_pure (st1 st2 : EngineState) (mb : Nat)
    (hits : AdcHits) (t0 t1 : Int) :
    (compute_tank_charge_member st1 mb hits t0 t1).1 = st1 ∧
    (compute_tank_charge_member st1 mb hits t0 t1).2 =
      (compute_tank_charge_member st2 mb hits t0 t1).2 ∧
    (compute_tank_charge_member st1 mb hits t0 t1).2 =
      compute_tank_charge mb hits t0 t1 :=
  ⟨rfl, rfl, rfl⟩

/-- C10: `check_that_not_empty` returns true exactly when the container is
non-empty, logs an error naming the object label when it is empty, logs
nothing otherwise, and never modifies the container. -/
theorem check_that_not_empty_correct {α : Type} (object_label : String)
    (obj : List α) (log : List String) :
    ((check_that_not_empty object_label obj log).1 = true ↔ obj ≠ []) ∧
    (check_that_not_empty object_label obj log).2.1 = obj ∧
    (obj = [] → (check_that_not_empty object_label obj log).2.2 =
      log ++ ["Error: The PhaseITreeMaker tool found an empty " ++ object_label
        ++ " entry"]) ∧
    (obj ≠ [] → (check_that_not_empty object_label obj log).2.2 = log) := by
  refine ⟨?_, rfl, ?_, ?_⟩
  · cases obj <;> simp [check_that_not_empty]
  · intro h
    subst h
    rfl
  · intro h
    cases obj with
    | nil => exact absurd rfl h
    | cons x t => rfl

/-- C10 witness: an empty container yields false and the labelled error
message; a non-empty one yields true and an untouched log. -/
theorem check_that_not_empty_correct_witness :
    (check_that_not_empty "pulse map" ([] : List Nat) ["earlier"]).2.2 =
      ["earlier",
        "Error: The PhaseITreeMaker tool found an empty pulse map entry"] ∧
    (check_that_not_empty "pulse map" ([3] : List Nat) ["earlier"]).2.2 =
      ["earlier"] ∧
    ((check_that_not_empty "pulse map" ([3] : List Nat) ["earlier"]).1 = true ↔
      ([3] : List Nat) ≠ []) := by
  refine ⟨?_, ?_, ?_⟩
  · have h := (check_that_not_empty_correct "pulse map" ([] : List Nat)
      ["earlier"]).2.2.1 rfl
    simpa using h
  · exact (check_that_not_empty_correct "pulse map" ([3] : List Nat)
      ["earlier"]).2.2.2 (by simp)
  · exact (check_that_not_empty_correct "pulse map" ([3] : List Nat)
      ["earlier"]).1
